import Mathlib

/-!
Shallow embedding of the work-tracker repository (models.py, storage.py,
analytics.py) and proofs of the specification claims about it.

Python strings are modelled as lists of characters, Python numbers
(int/float salaries, hours, percentages) as exact rationals, raising a
`ValueError` as returning `Except.error` with the message, and `None` as
`Option.none`.
-/

namespace WorkTracker

/-- Python strings, modelled as lists of characters. -/
abbrev Str := List Char

/-- Characters removed by Python's `str.strip()` with no argument: the
Unicode whitespace set of CPython's str.isspace (ASCII whitespace and
separators U+1C-U+1F, NEL U+85, no-break space U+A0, U+1680, the U+2000-
U+200A spaces, line/paragraph separators U+2028/U+2029, U+202F, U+205F and
the ideographic space U+3000). -/
def pyIsSpace (c : Char) : Bool :=
  (0x09 ≤ c.val && c.val ≤ 0x0d) || (0x1c ≤ c.val && c.val ≤ 0x1f) ||
  c.val = 0x20 || c.val = 0x85 || c.val = 0xa0 || c.val = 0x1680 ||
  (0x2000 ≤ c.val && c.val ≤ 0x200a) || c.val = 0x2028 || c.val = 0x2029 ||
  c.val = 0x202f || c.val = 0x205f || c.val = 0x3000

/-- Python `s.strip()`: drop leading and trailing whitespace. -/
def pyStrip (s : Str) : Str :=
  ((s.dropWhile pyIsSpace).reverse.dropWhile pyIsSpace).reverse

/-- The guard `not value.strip()` used by the validating setters:
true when the stripped string is empty. -/
def pyBlank (s : Str) : Bool := (pyStrip s).isEmpty

/-! Domain model: models.py -/

/-- Employee record (models.py, class `Employee`): `_id`, `_name`,
`_position`, `_salary`, `_hours_worked`. The constructor assigns the
arguments directly, without validation. -/
structure Employee where
  id : Option Int
  name : Str
  position : Str
  salary : ℚ
  hours_worked : ℚ
deriving DecidableEq

/-- Employee.__init__(name, position, salary, hours_worked=0, employee_id=None):
plain field assignment. -/
def Employee.init (name position : Str) (salary hours_worked : ℚ)
    (employee_id : Option Int) : Employee :=
  ⟨employee_id, name, position, salary, hours_worked⟩

def Employee.get_id (e : Employee) : Option Int := e.id

def Employee.get_name (e : Employee) : Str := e.name

def Employee.get_position (e : Employee) : Str := e.position

def Employee.get_salary (e : Employee) : ℚ := e.salary

def Employee.get_hours_worked (e : Employee) : ℚ := e.hours_worked

def Employee.set_id (e : Employee) (value : Option Int) : Employee :=
  { e with id := value }

/-- Employee.set_name: raises ValueError when `not value.strip()`,
otherwise assigns `_name`. -/
def Employee.set_name (e : Employee) (value : Str) : Except Str Employee :=
  if pyBlank value then
    .error "Имя не может быть пустым".toList
  else
    .ok { e with name := value }

def Employee.set_position (e : Employee) (value : Str) : Employee :=
  { e with position := value }

/-- Employee.set_salary: raises ValueError when `value < 0`. -/
def Employee.set_salary (e : Employee) (value : ℚ) : Except Str Employee :=
  if value < 0 then
    .error "Зарплата не может быть отрицательной".toList
  else
    .ok { e with salary := value }

/-- Employee.add_hours: raises ValueError when `hours < 0`, otherwise
accrues onto `_hours_worked`. -/
def Employee.add_hours (e : Employee) (hours : ℚ) : Except Str Employee :=
  if hours < 0 then
    .error "Часы не могут быть отрицательными".toList
  else
    .ok { e with hours_worked := e.hours_worked + hours }

/-- One invocation of a mutating public Employee operation
(the operations named by the invariants claim). -/
inductive EmpOp where
  | setName (value : Str)
  | setPosition (value : Str)
  | setSalary (value : ℚ)
  | addHours (value : ℚ)
deriving DecidableEq

/-- Apply one operation with Python exception semantics: if the setter
raises, the object is left unchanged (the check precedes the assignment). -/
def EmpOp.apply (op : EmpOp) (e : Employee) : Employee :=
  match op with
  | .setName v =>
      match e.set_name v with
      | .ok e2 => e2
      | .error _ => e
  | .setPosition v => e.set_position v
  | .setSalary v =>
      match e.set_salary v with
      | .ok e2 => e2
      | .error _ => e
  | .addHours v =>
      match e.add_hours v with
      | .ok e2 => e2
      | .error _ => e

/-- State after a sequence of public Employee operations. -/
def applyEmpOps (ops : List EmpOp) (e : Employee) : Employee :=
  ops.foldl (fun acc op => op.apply acc) e

/-- The status literal "В процессе" (in progress, the default). -/
def statusInProgress : Str := "В процессе".toList

/-- The status literal "Завершено" (completed). -/
def statusCompleted : Str := "Завершено".toList

/-- Task.STATUSES class constant: the two fixed status values. -/
def STATUSES : List Str := [statusInProgress, statusCompleted]

/-- Task record (models.py, class `Task`): `_id`, `_title`, `_description`,
`_status`, `_assigned_employee`, `_project_id`. The constructor assigns the
arguments directly, without validation. -/
structure Task where
  id : Option Int
  title : Str
  description : Str
  status : Str
  assigned_employee : Option Employee
  project_id : Option Int
deriving DecidableEq

/-- Task.__init__(title, description, status="В процессе",
assigned_employee=None, task_id=None, project_id=None). -/
def Task.init (title description status : Str) (assigned_employee : Option Employee)
    (task_id project_id : Option Int) : Task :=
  ⟨task_id, title, description, status, assigned_employee, project_id⟩

def Task.get_id (t : Task) : Option Int := t.id

def Task.get_title (t : Task) : Str := t.title

def Task.get_description (t : Task) : Str := t.description

def Task.get_status (t : Task) : Str := t.status

def Task.get_assigned_employee (t : Task) : Option Employee := t.assigned_employee

def Task.get_project_id (t : Task) : Option Int := t.project_id

def Task.set_id (t : Task) (value : Option Int) : Task := { t with id := value }

/-- Task.set_title: raises ValueError when `not value.strip()`. -/
def Task.set_title (t : Task) (value : Str) : Except Str Task :=
  if pyBlank value then
    .error "Название задачи не может быть пустым".toList
  else
    .ok { t with title := value }

def Task.set_description (t : Task) (value : Str) : Task :=
  { t with description := value }

def Task.set_project_id (t : Task) (value : Option Int) : Task :=
  { t with project_id := value }

def Task.assign_employee (t : Task) (employee : Option Employee) : Task :=
  { t with assigned_employee := employee }

/-- Task.mark_complete: `self._status = "Завершено"`. -/
def Task.mark_complete (t : Task) : Task := { t with status := statusCompleted }

/-- Task.is_completed: `self._status == "Завершено"`. -/
def Task.is_completed (t : Task) : Bool := t.status = statusCompleted

/-- One invocation of a mutating public Task operation. -/
inductive TaskOp where
  | setId (value : Option Int)
  | setTitle (value : Str)
  | setDescription (value : Str)
  | setProjectId (value : Option Int)
  | assignEmployee (value : Option Employee)
  | markComplete
deriving DecidableEq

/-- Apply one Task operation with Python exception semantics: a raising
setter leaves the object unchanged. -/
def TaskOp.apply (op : TaskOp) (t : Task) : Task :=
  match op with
  | .setId v => t.set_id v
  | .setTitle v =>
      match t.set_title v with
      | .ok t2 => t2
      | .error _ => t
  | .setDescription v => t.set_description v
  | .setProjectId v => t.set_project_id v
  | .assignEmployee v => t.assign_employee v
  | .markComplete => t.mark_complete

/-- State after a sequence of public Task operations. -/
def applyTaskOps (ops : List TaskOp) (t : Task) : Task :=
  ops.foldl (fun acc op => op.apply acc) t

/-- Project record (models.py, class `Project`): `_id`, `_title`, `_tasks`
(starts empty). Here the in-memory task list is modelled by its value; the
reference/aliasing behaviour of `get_tasks` is modelled separately below. -/
structure Project where
  id : Option Int
  title : Str
  tasks : List Task
deriving DecidableEq

/-- Project.__init__(title, project_id=None): `_tasks = []`. -/
def Project.init (title : Str) (project_id : Option Int) : Project :=
  ⟨project_id, title, []⟩

def Project.get_id (p : Project) : Option Int := p.id

def Project.get_title (p : Project) : Str := p.title

/-- Project.get_tasks: `return list(self._tasks)` — the value of a fresh
copy of the internal list. -/
def Project.get_tasks (p : Project) : List Task := p.tasks

def Project.set_id (p : Project) (value : Option Int) : Project :=
  { p with id := value }

/-- Project.set_title: raises ValueError when `not value.strip()`. -/
def Project.set_title (p : Project) (value : Str) : Except Str Project :=
  if pyBlank value then
    .error "Название проекта не может быть пустым".toList
  else
    .ok { p with title := value }

def Project.set_tasks (p : Project) (tasks : List Task) : Project :=
  { p with tasks := tasks }

def Project.add_task (p : Project) (task : Task) : Project :=
  { p with tasks := p.tasks ++ [task] }

/-- Project.remove_task: `if task in self._tasks: self._tasks.remove(task)`
(remove the first occurrence, if any). -/
def Project.remove_task (p : Project) (task : Task) : Project :=
  if task ∈ p.tasks then { p with tasks := p.tasks.erase task } else p

/-- The counting loop of Project.project_progress:
`completed = 0; for task in tasks: if task.get_status() == "Завершено": completed += 1`. -/
def completedLoop (tasks : List Task) : Nat :=
  tasks.foldl (fun completed task =>
    if task.get_status = statusCompleted then completed + 1 else completed) 0

/-- Project.project_progress: 0.0 for an empty list, otherwise
`(completed / len(tasks)) * 100`. -/
def Project.project_progress (p : Project) : ℚ :=
  if p.tasks.length = 0 then 0
  else ((completedLoop p.tasks : ℚ) / (p.tasks.length : ℚ)) * 100

/-- The counting loop of Project.get_completed_tasks_count. -/
def Project.get_completed_tasks_count (p : Project) : Nat :=
  p.tasks.foldl (fun count task => if task.is_completed then count + 1 else count) 0

/-! Persistence store: storage.py.  The SQLite file is modelled as three
tables of rows plus the AUTOINCREMENT counters (SQLite row ids start at 1).
`cursor.lastrowid` after an INSERT is the id the row received. -/

/-- Row of the `employees` table. -/
structure EmployeeRow where
  id : Int
  name : Str
  position : Str
  salary : ℚ
  hours_worked : ℚ
deriving DecidableEq

/-- Row of the `projects` table. -/
structure ProjectRow where
  id : Int
  title : Str
deriving DecidableEq

/-- Row of the `tasks` table (`employee_id` and `project_id` are nullable
foreign keys). -/
structure TaskRow where
  id : Int
  title : Str
  description : Str
  status : Str
  employee_id : Option Int
  project_id : Option Int
deriving DecidableEq

/-- The database state: the three tables created by `_init_database`,
together with their AUTOINCREMENT counters. -/
structure Database where
  employees : List EmployeeRow
  projects : List ProjectRow
  tasks : List TaskRow
  nextEmployeeId : Int
  nextProjectId : Int
  nextTaskId : Int
deriving DecidableEq

/-- A freshly initialised database: empty tables, ids start at 1. -/
def initDatabase : Database := ⟨[], [], [], 1, 1, 1⟩

namespace DatabaseManager

/-- DatabaseManager.add_employee: INSERT the employee's field values,
commit, `return cursor.lastrowid`.  The result is (returned id, new
database state, the entity object as the caller sees it after the call);
the source never assigns to the entity, so the third component is the
argument unchanged. -/
def add_employee (db : Database) (employee : Employee) :
    Int × Database × Employee :=
  let rid := db.nextEmployeeId
  (rid,
   { db with
      employees := db.employees ++
        [⟨rid, employee.get_name, employee.get_position,
          employee.get_salary, employee.get_hours_worked⟩],
      nextEmployeeId := rid + 1 },
   employee)

/-- DatabaseManager.update_employee: UPDATE all field values WHERE id
matches the entity's id (an absent id matches no row; no error either way). -/
def update_employee (db : Database) (employee : Employee) : Database :=
  { db with
      employees := db.employees.map (fun r =>
        if employee.get_id = some r.id then
          ⟨r.id, employee.get_name, employee.get_position,
           employee.get_salary, employee.get_hours_worked⟩
        else r) }

/-- First statement of delete_employee:
`UPDATE tasks SET employee_id=NULL WHERE employee_id=?`. -/
def sqlNullifyTaskEmployee (db : Database) (employee_id : Int) : Database :=
  { db with
      tasks := db.tasks.map (fun t =>
        if t.employee_id = some employee_id then { t with employee_id := none }
        else t) }

/-- Second statement of delete_employee: `DELETE FROM employees WHERE id=?`. -/
def sqlDeleteEmployeeRow (db : Database) (employee_id : Int) : Database :=
  { db with employees := db.employees.filter (fun r => r.id != employee_id) }

/-- DatabaseManager.delete_employee: the nullify UPDATE on tasks runs first,
then the employee row is deleted, then commit. -/
def delete_employee (db : Database) (employee_id : Int) : Database :=
  sqlDeleteEmployeeRow (sqlNullifyTaskEmployee db employee_id) employee_id

/-- DatabaseManager.add_project: INSERT the title, `return cursor.lastrowid`.
Same result convention as `add_employee`. -/
def add_project (db : Database) (project : Project) :
    Int × Database × Project :=
  let rid := db.nextProjectId
  (rid,
   { db with
      projects := db.projects ++ [⟨rid, project.get_title⟩],
      nextProjectId := rid + 1 },
   project)

/-- DatabaseManager.update_project: `UPDATE projects SET title=? WHERE id=?`. -/
def update_project (db : Database) (project : Project) : Database :=
  { db with
      projects := db.projects.map (fun r =>
        if project.get_id = some r.id then ⟨r.id, project.get_title⟩ else r) }

/-- First statement of delete_project: `DELETE FROM tasks WHERE project_id=?`. -/
def sqlDeleteTasksOfProject (db : Database) (project_id : Int) : Database :=
  { db with tasks := db.tasks.filter (fun t => t.project_id != some project_id) }

/-- Second statement of delete_project: `DELETE FROM projects WHERE id=?`. -/
def sqlDeleteProjectRow (db : Database) (project_id : Int) : Database :=
  { db with projects := db.projects.filter (fun r => r.id != project_id) }

/-- DatabaseManager.delete_project: delete the project's tasks first, then
the project row, then commit. -/
def delete_project (db : Database) (project_id : Int) : Database :=
  sqlDeleteProjectRow (sqlDeleteTasksOfProject db project_id) project_id

/-- The employee_id computed by add_task / update_task:
`employee.get_id()` when an employee is assigned, else None. -/
def taskEmployeeId (task : Task) : Option Int :=
  match task.get_assigned_employee with
  | some employee => employee.get_id
  | none => none

/-- DatabaseManager.add_task: INSERT title, description, status, the
assigned employee's id (or NULL) and project id, `return cursor.lastrowid`.
Same result convention as `add_employee`. -/
def add_task (db : Database) (task : Task) : Int × Database × Task :=
  let rid := db.nextTaskId
  (rid,
   { db with
      tasks := db.tasks ++
        [⟨rid, task.get_title, task.get_description, task.get_status,
          taskEmployeeId task, task.get_project_id⟩],
      nextTaskId := rid + 1 },
   task)

/-- DatabaseManager.update_task: UPDATE all field values WHERE id matches. -/
def update_task (db : Database) (task : Task) : Database :=
  { db with
      tasks := db.tasks.map (fun r =>
        if task.get_id = some r.id then
          ⟨r.id, task.get_title, task.get_description, task.get_status,
           taskEmployeeId task, task.get_project_id⟩
        else r) }

/-- DatabaseManager.delete_task: `DELETE FROM tasks WHERE id=?`. -/
def delete_task (db : Database) (task_id : Int) : Database :=
  { db with tasks := db.tasks.filter (fun r => r.id != task_id) }

end DatabaseManager

/-! Aggregation: analytics.py, `get_task_statistics`. -/

/-- The dictionary returned by get_task_statistics. -/
structure TaskStats where
  total : Nat
  completed : Nat
  in_progress : Nat
  assigned : Nat
  unassigned : Nat
  completion_rate : ℚ
  assignment_rate : ℚ
deriving DecidableEq

/-- The five running counters of the get_task_statistics loop. -/
structure TaskCounts where
  total : Nat
  completed : Nat
  in_progress : Nat
  assigned : Nat
  unassigned : Nat
deriving DecidableEq

/-- Body of the inner loop of get_task_statistics for one task. -/
def tallyTask (c : TaskCounts) (task : Task) : TaskCounts :=
  let c1 : TaskCounts := { c with total := c.total + 1 }
  let c2 : TaskCounts :=
    if task.is_completed then { c1 with completed := c1.completed + 1 }
    else { c1 with in_progress := c1.in_progress + 1 }
  if task.get_assigned_employee.isSome then { c2 with assigned := c2.assigned + 1 }
  else { c2 with unassigned := c2.unassigned + 1 }

/-- The nested loops of get_task_statistics:
`for project in projects: for task in project.get_tasks(): ...`. -/
def countTasks (projects : List Project) : TaskCounts :=
  projects.foldl (fun c project => project.get_tasks.foldl tallyTask c)
    ⟨0, 0, 0, 0, 0⟩

/-- analytics.get_task_statistics: the counters plus the two derived rates,
each `count / total * 100` when total > 0 and 0 otherwise. -/
def get_task_statistics (projects : List Project) : TaskStats :=
  let c := countTasks projects
  ⟨c.total, c.completed, c.in_progress, c.assigned, c.unassigned,
   if 0 < c.total then (c.completed : ℚ) / (c.total : ℚ) * 100 else 0,
   if 0 < c.total then (c.assigned : ℚ) / (c.total : ℚ) * 100 else 0⟩

/-! Reference model of Python list objects, for the copy semantics of
Project.get_tasks.  A heap maps references (allocation order numbers) to
list contents; `list(xs)` allocates a fresh object with the same contents. -/

/-- Heap of Python list-of-task objects. -/
structure ListHeap where
  lists : Nat → List Task
  next : Nat

/-- Overwrite the contents of one list object (an in-place mutation). -/
def ListHeap.write (h : ListHeap) (r : Nat) (l : List Task) : ListHeap :=
  ⟨Function.update h.lists r l, h.next⟩

/-- Allocate a fresh list object with the given contents. -/
def ListHeap.alloc (h : ListHeap) (l : List Task) : Nat × ListHeap :=
  (h.next, ⟨Function.update h.lists h.next l, h.next + 1⟩)

/-- A Project as a Python object: `_tasks` holds a reference to a list
object living in the heap. -/
structure ProjectObj where
  id : Option Int
  title : Str
  tasksRef : Nat

/-- Project.get_tasks in the reference model: `return list(self._tasks)`
allocates a fresh list object with the same elements and returns its
reference. -/
def ProjectObj.get_tasks (p : ProjectObj) (h : ListHeap) : Nat × ListHeap :=
  h.alloc (h.lists p.tasksRef)

/-- `xs.append(t)` on the list object `r`. -/
def listAppendObj (h : ListHeap) (r : Nat) (t : Task) : ListHeap :=
  h.write r (h.lists r ++ [t])

/-- `xs.remove(t)` on the list object `r` (first occurrence, if present). -/
def listRemoveObj (h : ListHeap) (r : Nat) (t : Task) : ListHeap :=
  h.write r ((h.lists r).erase t)

/-- Project.add_task in the reference model: append to the internal list. -/
def ProjectObj.add_task (p : ProjectObj) (h : ListHeap) (task : Task) : ListHeap :=
  listAppendObj h p.tasksRef task

/-- Project.remove_task in the reference model. -/
def ProjectObj.remove_task (p : ProjectObj) (h : ListHeap) (task : Task) : ListHeap :=
  if task ∈ h.lists p.tasksRef then listRemoveObj h p.tasksRef task else h

/-- Project.set_tasks in the reference model: the field now holds the
caller's list reference itself. -/
def ProjectObj.set_tasks (p : ProjectObj) (r : Nat) : ProjectObj :=
  { p with tasksRef := r }

/-- Project.project_progress in the reference model, computed over the
current contents of the internal list object. -/
def ProjectObj.project_progress (p : ProjectObj) (h : ListHeap) : ℚ :=
  if (h.lists p.tasksRef).length = 0 then 0
  else ((completedLoop (h.lists p.tasksRef) : ℚ) / ((h.lists p.tasksRef).length : ℚ)) * 100

/-- Project.get_completed_tasks_count in the reference model. -/
def ProjectObj.get_completed_tasks_count (p : ProjectObj) (h : ListHeap) : Nat :=
  (h.lists p.tasksRef).foldl
    (fun count task => if task.is_completed then count + 1 else count) 0

/-! Concrete objects used in witnesses and counterexamples. -/

/-- Employee of the pay scenario: salary 100000, hours 0, not yet saved. -/
def emp100k : Employee :=
  Employee.init "Иван Иванов".toList "Разработчик".toList 100000 0 none

/-- Employee constructed with empty name and negative salary and hours:
the constructor performs no validation. -/
def badEmployee : Employee := Employee.init [] [] (-1) (-1) none

/-- A task in progress. -/
def task0 : Task := Task.init "Задача 1".toList [] statusInProgress none none none

/-- Task constructed with a status outside Task.STATUSES: the constructor
performs no validation. -/
def badTask : Task :=
  Task.init "Задача".toList [] "Отменено".toList none none none

/-- A project in memory. -/
def proj0 : Project := Project.init "Проект".toList none

/-- A project holding two tasks of which exactly one is completed. -/
def projHalf : Project :=
  (proj0.add_task task0.mark_complete).add_task task0

/-- A heap with one (empty) list object, referenced by `projObj0`. -/
def heap0 : ListHeap := ⟨fun _ => [], 1⟩

/-- A project object whose internal task list is list object 0 of `heap0`. -/
def projObj0 : ProjectObj := ⟨none, "Проект".toList, 0⟩

/-- The Employee invariants named by the spec: name neither empty nor
whitespace-only, salary non-negative, hours non-negative. -/
def empValid (e : Employee) : Prop :=
  ¬ (∀ c ∈ e.name, pyIsSpace c = true) ∧ 0 ≤ e.salary ∧ 0 ≤ e.hours_worked

/-- A concrete store holding one employee (id 1), one project (id 1) and
one task (id 1) assigned to the employee and the project. -/
def db1 : Database :=
  ⟨[⟨1, "Иван Иванов".toList, "Разработчик".toList, 100000, 0⟩],
   [⟨1, "Проект".toList⟩],
   [⟨1, "Задача 1".toList, [], statusInProgress, some 1, some 1⟩],
   2, 2, 2⟩

/-! Helper lemmas. -/

theorem pyBlank_iff_all_space (s : Str) :
    pyBlank s = true ↔ ∀ c ∈ s, pyIsSpace c = true := by
  have h1 : pyBlank s = true ↔ ∀ c ∈ s.dropWhile pyIsSpace, pyIsSpace c = true := by
    unfold pyBlank pyStrip
    rw [List.isEmpty_iff, List.reverse_eq_nil_iff, List.dropWhile_eq_nil_iff]
    constructor
    · intro h c hc
      exact h c (List.mem_reverse.2 hc)
    · intro h c hc
      exact h c (List.mem_reverse.1 hc)
  rw [h1]
  constructor
  · intro h c hc
    have hsplit := List.takeWhile_append_dropWhile (p := pyIsSpace) (l := s)
    rw [← hsplit] at hc
    rcases List.mem_append.1 hc with htk | hdr
    · exact List.mem_takeWhile_imp htk
    · exact h c hdr
  · intro h c hc
    exact h c ((List.dropWhile_sublist pyIsSpace).subset hc)

theorem completedLoop_eq_filter (l : List Task) :
    completedLoop l = (l.filter (fun t => t.get_status = statusCompleted)).length := by
  have h : ∀ n : Nat, l.foldl (fun completed task =>
      if task.get_status = statusCompleted then completed + 1 else completed) n
      = n + (l.filter (fun t => t.get_status = statusCompleted)).length := by
    induction l with
    | nil => intro n; simp
    | cons t ts ih =>
      intro n
      by_cases hp : t.get_status = statusCompleted
      · simp [List.filter_cons, hp, ih]
        omega
      · simp [List.filter_cons, hp, ih]
  simpa [completedLoop] using h 0

theorem foldl_preserves {α β : Type} (P : α → Prop) (f : α → β → α)
    (hf : ∀ a b, P a → P (f a b)) :
    ∀ (l : List β) (a : α), P a → P (l.foldl f a) := by
  intro l
  induction l with
  | nil =>
    intro a ha
    exact ha
  | cons b bs ih =>
    intro a ha
    exact ih (f a b) (hf a b ha)

theorem tallyTask_preserves (c : TaskCounts) (t : Task)
    (h1 : c.total = c.completed + c.in_progress)
    (h2 : c.total = c.assigned + c.unassigned) :
    (tallyTask c t).total = (tallyTask c t).completed + (tallyTask c t).in_progress ∧
    (tallyTask c t).total = (tallyTask c t).assigned + (tallyTask c t).unassigned := by
  unfold tallyTask
  by_cases hc : t.is_completed <;> by_cases ha : t.get_assigned_employee.isSome <;>
    simp [hc, ha] <;> omega

/-- The Employee invariants named by the spec: name neither empty nor
whitespace-only, salary non-negative, hours non-negative. -/
theorem empOp_apply_valid (op : EmpOp) (e : Employee) (he : empValid e) :
    empValid (op.apply e) := by
  obtain ⟨hn, hs, hh⟩ := he
  cases op with
  | setName v =>
    by_cases hb : pyBlank v = true
    · simpa [EmpOp.apply, Employee.set_name, hb] using ⟨hn, hs, hh⟩
    · have hnv : ¬ (∀ c ∈ v, pyIsSpace c = true) := fun hall =>
        hb ((pyBlank_iff_all_space v).2 hall)
      simp only [EmpOp.apply, Employee.set_name, if_neg hb]
      exact ⟨hnv, hs, hh⟩
  | setPosition v => exact ⟨hn, hs, hh⟩
  | setSalary v =>
    by_cases hv : v < 0
    · simpa [EmpOp.apply, Employee.set_salary, hv] using ⟨hn, hs, hh⟩
    · simp only [EmpOp.apply, Employee.set_salary, if_neg hv]
      exact ⟨hn, le_of_not_lt hv, hh⟩
  | addHours v =>
    by_cases hv : v < 0
    · simpa [EmpOp.apply, Employee.add_hours, hv] using ⟨hn, hs, hh⟩
    · simp only [EmpOp.apply, Employee.add_hours, if_neg hv]
      exact ⟨hn, hs, add_nonneg hh (le_of_not_lt hv)⟩

theorem empOp_apply_hours_le (op : EmpOp) (e : Employee) :
    e.hours_worked ≤ (op.apply e).hours_worked := by
  cases op with
  | setName v =>
    by_cases hb : pyBlank v = true
    · simp [EmpOp.apply, Employee.set_name, hb]
    · simp [EmpOp.apply, Employee.set_name, hb]
  | setPosition v => exact le_refl _
  | setSalary v =>
    by_cases hv : v < 0
    · simp [EmpOp.apply, Employee.set_salary, hv]
    · simp [EmpOp.apply, Employee.set_salary, hv]
  | addHours v =>
    by_cases hv : v < 0
    · simp [EmpOp.apply, Employee.add_hours, hv]
    · simp only [EmpOp.apply, Employee.add_hours, if_neg hv]
      linarith [le_of_not_lt hv]

theorem applyEmpOps_hours_le (ops : List EmpOp) (e : Employee) :
    e.hours_worked ≤ (applyEmpOps ops e).hours_worked := by
  induction ops generalizing e with
  | nil => exact le_refl _
  | cons op rest ih =>
    exact le_trans (empOp_apply_hours_le op e) (ih (op.apply e))

theorem applyEmpOps_append (ops more : List EmpOp) (e : Employee) :
    applyEmpOps (ops ++ more) e = applyEmpOps more (applyEmpOps ops e) := by
  simp [applyEmpOps, List.foldl_append]

theorem taskOp_apply_status (op : TaskOp) (t : Task) :
    (op.apply t).status = t.status ∨ (op.apply t).status = statusCompleted := by
  cases op with
  | setId v => exact Or.inl rfl
  | setTitle v =>
    by_cases hb : pyBlank v = true
    · simp [TaskOp.apply, Task.set_title, hb]
    · simp [TaskOp.apply, Task.set_title, hb]
  | setDescription v => exact Or.inl rfl
  | setProjectId v => exact Or.inl rfl
  | assignEmployee v => exact Or.inl rfl
  | markComplete => exact Or.inr rfl

theorem taskOp_apply_in_statuses (op : TaskOp) (t : Task)
    (ht : t.status ∈ STATUSES) : (op.apply t).status ∈ STATUSES := by
  rcases taskOp_apply_status op t with h | h
  · rw [h]; exact ht
  · rw [h]; simp [STATUSES]

theorem taskOp_apply_completed (op : TaskOp) (t : Task)
    (ht : t.is_completed = true) : (op.apply t).is_completed = true := by
  rcases taskOp_apply_status op t with h | h
  · simpa [Task.is_completed, h] using ht
  · simp [Task.is_completed, h]

theorem applyTaskOps_append (ops more : List TaskOp) (t : Task) :
    applyTaskOps (ops ++ more) t = applyTaskOps more (applyTaskOps ops t) := by
  simp [applyTaskOps, List.foldl_append]

theorem list_map_self {α : Type} (l : List α) (f : α → α)
    (h : ∀ x ∈ l, f x = x) : l.map f = l := by
  induction l with
  | nil => rfl
  | cons a as ih =>
    rw [List.map_cons, h a (by simp), ih (fun x hx => h x (by simp [hx]))]

theorem forall₂_map_self {α : Type} (R : α → α → Prop) (l : List α) (f : α → α)
    (h : ∀ x ∈ l, R x (f x)) : List.Forall₂ R l (l.map f) := by
  induction l with
  | nil => exact List.Forall₂.nil
  | cons a as ih =>
    rw [List.map_cons]
    exact List.Forall₂.cons (h a (by simp)) (ih (fun x hx => h x (by simp [hx])))

/-! Claim theorems. -/

/-- C4: project_progress() returns 0 when the task list is empty, and for
n > 0 tasks of which exactly k have the completed status it returns exactly
(k/n)·100 (hence 100 when all tasks are completed). -/
theorem C4_project_progress (p : Project) (n k : Nat)
    (hn : p.tasks.length = n)
    (hk : (p.tasks.filter (fun t => t.get_status = statusCompleted)).length = k) :
    (p.tasks = [] → p.project_progress = 0) ∧
    (0 < n → p.project_progress = ((k : ℚ) / (n : ℚ)) * 100) ∧
    (0 < n → k = n → p.project_progress = 100) := by
  have hloop : (completedLoop p.tasks : ℚ) = (k : ℚ) := by
    rw [completedLoop_eq_filter, hk]
  refine ⟨?_, ?_, ?_⟩
  · intro hempty
    simp [Project.project_progress, hempty]
  · intro hpos
    have hne : p.tasks.length ≠ 0 := by omega
    simp only [Project.project_progress, hn, if_neg (hn ▸ hne)]
    rw [hloop]
  · intro hpos hkn
    have hne : p.tasks.length ≠ 0 := by omega
    simp only [Project.project_progress, if_neg hne]
    rw [hloop, hn, hkn]
    have hnz : (n : ℚ) ≠ 0 := by
      exact_mod_cast Nat.pos_iff_ne_zero.1 hpos
    field_simp

/-- C4 witness: a project with two tasks, one completed, has progress 50. -/
theorem C4_project_progress_witness : projHalf.project_progress = 50 := by
  have h := (C4_project_progress projHalf 2 1 (by decide) (by decide)).2.1 (by decide)
  rw [h]
  norm_num

/-- C6: setting a name/title to an empty or whitespace-only string raises a
validation error on Employee.set_name, Project.set_title and Task.set_title,
yielding no mutated entity, while any string containing a non-whitespace
character is always accepted and stored, changing only that field. -/
theorem C6_name_validation (e : Employee) (p : Project) (t : Task) (v : Str) :
    ((∀ c ∈ v, pyIsSpace c = true) →
      e.set_name v = .error "Имя не может быть пустым".toList ∧
      p.set_title v = .error "Название проекта не может быть пустым".toList ∧
      t.set_title v = .error "Название задачи не может быть пустым".toList) ∧
    ((∃ c ∈ v, pyIsSpace c = false) →
      e.set_name v = .ok { e with name := v } ∧
      p.set_title v = .ok { p with title := v } ∧
      t.set_title v = .ok { t with title := v }) := by
  constructor
  · intro hall
    have hb : pyBlank v = true := (pyBlank_iff_all_space v).2 hall
    simp [Employee.set_name, Project.set_title, Task.set_title, hb]
  · rintro ⟨c, hc, hcs⟩
    have hb : pyBlank v = false := by
      rcases Bool.eq_false_or_eq_true (pyBlank v) with htrue | hfalse
      · exact absurd ((pyBlank_iff_all_space v).1 htrue c hc) (by simp [hcs])
      · exact hfalse
    simp [Employee.set_name, Project.set_title, Task.set_title, hb]

/-- C6 witness: an ASCII-whitespace-only name and a name consisting of a
single no-break space (U+00A0, also stripped by Python) are both rejected,
and a non-blank name is stored, on the concrete employee. -/
theorem C6_name_validation_witness :
    emp100k.set_name "   ".toList = .error "Имя не может быть пустым".toList ∧
    emp100k.set_name "\u00A0".toList = .error "Имя не может быть пустым".toList ∧
    emp100k.set_name "Пётр".toList = .ok { emp100k with name := "Пётр".toList } := by
  refine ⟨?_, ?_, ?_⟩
  · exact ((C6_name_validation emp100k proj0 task0 "   ".toList).1 (by decide)).1
  · exact ((C6_name_validation emp100k proj0 task0 "\u00A0".toList).1 (by decide)).1
  · exact ((C6_name_validation emp100k proj0 task0 "Пётр".toList).2
      ⟨'П', by decide, by decide⟩).1

/-- C7: the result of get_task_statistics satisfies
total = completed + in_progress and total = assigned + unassigned, with the
two rates equal to count/total·100 when total > 0 and 0 when total = 0. -/
theorem C7_task_statistics (projects : List Project) :
    (get_task_statistics projects).total
      = (get_task_statistics projects).completed
        + (get_task_statistics projects).in_progress ∧
    (get_task_statistics projects).total
      = (get_task_statistics projects).assigned
        + (get_task_statistics projects).unassigned ∧
    (0 < (get_task_statistics projects).total →
      (get_task_statistics projects).completion_rate
        = ((get_task_statistics projects).completed : ℚ)
            / ((get_task_statistics projects).total : ℚ) * 100 ∧
      (get_task_statistics projects).assignment_rate
        = ((get_task_statistics projects).assigned : ℚ)
            / ((get_task_statistics projects).total : ℚ) * 100) ∧
    ((get_task_statistics projects).total = 0 →
      (get_task_statistics projects).completion_rate = 0 ∧
      (get_task_statistics projects).assignment_rate = 0) := by
  have hinv : (countTasks projects).total
      = (countTasks projects).completed + (countTasks projects).in_progress ∧
      (countTasks projects).total
      = (countTasks projects).assigned + (countTasks projects).unassigned := by
    unfold countTasks
    refine foldl_preserves
      (fun c => c.total = c.completed + c.in_progress ∧
        c.total = c.assigned + c.unassigned)
      (fun c project => project.get_tasks.foldl tallyTask c) ?_ projects
      ⟨0, 0, 0, 0, 0⟩ ⟨rfl, rfl⟩
    intro c project hc
    refine foldl_preserves
      (fun c => c.total = c.completed + c.in_progress ∧
        c.total = c.assigned + c.unassigned) tallyTask ?_ project.get_tasks c hc
    rintro a b ⟨ha1, ha2⟩
    exact tallyTask_preserves a b ha1 ha2
  obtain ⟨h1, h2⟩ := hinv
  refine ⟨by simpa [get_task_statistics] using h1,
    by simpa [get_task_statistics] using h2, ?_, ?_⟩
  · intro hpos
    have hpos2 : 0 < (countTasks projects).total := by
      simpa [get_task_statistics] using hpos
    constructor <;> simp [get_task_statistics, hpos2]
  · intro hzero
    have hz : (countTasks projects).total = 0 := by
      simpa [get_task_statistics] using hzero
    constructor <;> simp [get_task_statistics, hz]

/-- C7 witness: on one project with two tasks of which one is completed and
none assigned, the statistics say two total tasks and a completion rate of
50 percent. -/
theorem C7_task_statistics_witness :
    (get_task_statistics [projHalf]).total = 2 ∧
    (get_task_statistics [projHalf]).completion_rate = 50 := by
  have h := ((C7_task_statistics [projHalf]).2.2.1 (by decide)).1
  have hc : (get_task_statistics [projHalf]).completed = 1 := by decide
  have ht : (get_task_statistics [projHalf]).total = 2 := by decide
  refine ⟨ht, ?_⟩
  rw [h, hc, ht]
  norm_num

/-- C2 (amended): construction itself performs no validation, but for every
Employee constructed from arguments that satisfy the invariants, every state
reachable via set_name, set_position, set_salary and add_hours has a name
that is neither empty nor whitespace-only, a non-negative salary and
non-negative hours; and hours_worked never decreases across any further
sequence of operations. -/
theorem C2_employee_invariants (name position : Str) (salary hours : ℚ)
    (eid : Option Int) (ops : List EmpOp)
    (hname : ¬ (∀ c ∈ name, pyIsSpace c = true))
    (hsal : 0 ≤ salary) (hhrs : 0 ≤ hours) :
    (¬ (∀ c ∈ (applyEmpOps ops (Employee.init name position salary hours eid)).name,
        pyIsSpace c = true)) ∧
    0 ≤ (applyEmpOps ops (Employee.init name position salary hours eid)).salary ∧
    0 ≤ (applyEmpOps ops (Employee.init name position salary hours eid)).hours_worked ∧
    (∀ more : List EmpOp,
      (applyEmpOps ops (Employee.init name position salary hours eid)).hours_worked
        ≤ (applyEmpOps (ops ++ more)
            (Employee.init name position salary hours eid)).hours_worked) := by
  have hvalid : empValid (applyEmpOps ops (Employee.init name position salary hours eid)) := by
    unfold applyEmpOps
    exact foldl_preserves empValid (fun acc op => op.apply acc)
      (fun a b ha => empOp_apply_valid b a ha) ops
      (Employee.init name position salary hours eid)
      (show empValid (Employee.init name position salary hours eid) from
        ⟨hname, hsal, hhrs⟩)
  obtain ⟨h1, h2, h3⟩ := hvalid
  refine ⟨h1, h2, h3, ?_⟩
  intro more
  rw [applyEmpOps_append]
  exact applyEmpOps_hours_le more _

/-- C2 witness: from the valid concrete construction, after accruing 176
hours the invariants hold. -/
theorem C2_employee_invariants_witness :
    0 ≤ (applyEmpOps [EmpOp.addHours 176]
      (Employee.init "Иван Иванов".toList "Разработчик".toList 100000 0 none)).hours_worked := by
  exact (C2_employee_invariants "Иван Иванов".toList "Разработчик".toList 100000 0 none
    [EmpOp.addHours 176] (by decide) (by norm_num) (by norm_num)).2.2.1

/-- C2 counterexample: the constructor accepts an empty name and negative
salary and hours, so the state reached by construction alone (an empty
operation sequence) violates the claimed invariants. -/
theorem C2_employee_invariants_counterexample :
    (applyEmpOps [] badEmployee).name = [] ∧
    (applyEmpOps [] badEmployee).salary < 0 ∧
    (applyEmpOps [] badEmployee).hours_worked < 0 := by
  refine ⟨rfl, ?_, ?_⟩ <;> norm_num [applyEmpOps, badEmployee, Employee.init]

/-- C9 (amended): mark_complete is the only status-changing operation and
there is no reopen operation, so once is_completed() is true it remains true
under every subsequent operation; and provided the Task is constructed with
one of the two fixed status values (the constructor does not validate the
status), every reachable status stays one of the two fixed values. -/
theorem C9_status_forward (t : Task) (ops : List TaskOp)
    (hinit : t.status ∈ STATUSES) :
    (applyTaskOps ops t).status ∈ STATUSES ∧
    (t.is_completed = true → (applyTaskOps ops t).is_completed = true) ∧
    (∀ more : List TaskOp, (applyTaskOps ops t).is_completed = true →
      (applyTaskOps (ops ++ more) t).is_completed = true) := by
  refine ⟨?_, ?_, ?_⟩
  · unfold applyTaskOps
    exact foldl_preserves (fun x => x.status ∈ STATUSES) (fun acc op => op.apply acc)
      (fun a b ha => taskOp_apply_in_statuses b a ha) ops t hinit
  · intro hdone
    unfold applyTaskOps
    exact foldl_preserves (fun x => x.is_completed = true) (fun acc op => op.apply acc)
      (fun a b ha => taskOp_apply_completed b a ha) ops t hdone
  · intro more hdone
    rw [applyTaskOps_append]
    unfold applyTaskOps
    exact foldl_preserves (fun x => x.is_completed = true) (fun acc op => op.apply acc)
      (fun a b ha => taskOp_apply_completed b a ha) more _ hdone

/-- C9 witness: completing the concrete in-progress task keeps the status
among the two fixed values, and the task stays completed after a further
operation. -/
theorem C9_status_forward_witness :
    (applyTaskOps [TaskOp.markComplete] task0).status ∈ STATUSES ∧
    (applyTaskOps ([TaskOp.markComplete] ++ [TaskOp.setDescription []])
      task0).is_completed = true := by
  have h := C9_status_forward task0 [TaskOp.markComplete] (by decide)
  exact ⟨h.1, h.2.2 [TaskOp.setDescription []] (by decide)⟩

/-- C9 counterexample: the constructor accepts an arbitrary status string,
so a newly constructed Task can carry a status outside the two fixed
values. -/
theorem C9_status_forward_counterexample :
    applyTaskOps [] badTask = badTask ∧ badTask.status ∉ STATUSES := by
  exact ⟨rfl, by decide⟩

/-- C1 (amended): for an entity without an identifier, each add operation
inserts one new row carrying the entity's current field values, returns the
newly generated identifier and leaves the other tables untouched; it does
NOT update the entity object as a side effect — after the call the entity's
get_id() still returns none, so the caller must assign the returned
identifier itself. -/
theorem C1_add_operations (db : Database) (e : Employee) (p : Project) (t : Task)
    (he : e.get_id = none) (hp : p.get_id = none) (ht : t.get_id = none) :
    (DatabaseManager.add_employee db e).1 = db.nextEmployeeId ∧
    (DatabaseManager.add_employee db e).2.1.employees
      = db.employees ++ [⟨db.nextEmployeeId, e.get_name, e.get_position,
          e.get_salary, e.get_hours_worked⟩] ∧
    (DatabaseManager.add_employee db e).2.1.projects = db.projects ∧
    (DatabaseManager.add_employee db e).2.1.tasks = db.tasks ∧
    (DatabaseManager.add_employee db e).2.2 = e ∧
    (DatabaseManager.add_employee db e).2.2.get_id = none ∧
    (DatabaseManager.add_project db p).1 = db.nextProjectId ∧
    (DatabaseManager.add_project db p).2.1.projects
      = db.projects ++ [⟨db.nextProjectId, p.get_title⟩] ∧
    (DatabaseManager.add_project db p).2.2 = p ∧
    (DatabaseManager.add_project db p).2.2.get_id = none ∧
    (DatabaseManager.add_task db t).1 = db.nextTaskId ∧
    (DatabaseManager.add_task db t).2.1.tasks
      = db.tasks ++ [⟨db.nextTaskId, t.get_title, t.get_description,
          t.get_status, DatabaseManager.taskEmployeeId t, t.get_project_id⟩] ∧
    (DatabaseManager.add_task db t).2.2 = t ∧
    (DatabaseManager.add_task db t).2.2.get_id = none := by
  exact ⟨rfl, rfl, rfl, rfl, rfl, he, rfl, rfl, rfl, hp, rfl, rfl, rfl, ht⟩

/-- C1 witness: adding the not-yet-saved employee to a fresh database
returns identifier 1 and hands back the employee object unchanged. -/
theorem C1_add_operations_witness :
    (DatabaseManager.add_employee initDatabase emp100k).1 = 1 ∧
    (DatabaseManager.add_employee initDatabase emp100k).2.2 = emp100k := by
  have h := C1_add_operations initDatabase emp100k proj0 task0
    (by decide) (by decide) (by decide)
  exact ⟨h.1, h.2.2.2.2.1⟩

/-- C1 counterexample: adding the not-yet-saved employee to a fresh database
returns the generated identifier 1, but afterwards the employee object's
get_id() is still none, not the new identifier, refuting the claimed
side effect. -/
theorem C1_add_operations_counterexample :
    (DatabaseManager.add_employee initDatabase emp100k).1 = 1 ∧
    (DatabaseManager.add_employee initDatabase emp100k).2.2.get_id ≠ some 1 := by
  decide

/-- C3: delete_employee removes exactly the employee rows with the given
identifier, keeps every task row — nullifying the employee reference of
exactly those tasks that referenced the employee — and leaves projects
untouched; the nullify-update runs on the task table before the employee
row is deleted. delete_project removes every task row of the project and
then the project row, leaving employees untouched. -/
theorem C3_delete_semantics (db : Database) (eid pid : Int) :
    (DatabaseManager.delete_employee db eid).employees
      = db.employees.filter (fun r => r.id != eid) ∧
    (DatabaseManager.delete_employee db eid).projects = db.projects ∧
    (DatabaseManager.delete_employee db eid).tasks.length = db.tasks.length ∧
    List.Forall₂ (fun told tnew =>
        tnew.id = told.id ∧ tnew.title = told.title ∧
        tnew.description = told.description ∧ tnew.status = told.status ∧
        tnew.project_id = told.project_id ∧
        (told.employee_id = some eid → tnew.employee_id = none) ∧
        (told.employee_id ≠ some eid → tnew = told))
      db.tasks (DatabaseManager.delete_employee db eid).tasks ∧
    DatabaseManager.delete_employee db eid
      = DatabaseManager.sqlDeleteEmployeeRow
          (DatabaseManager.sqlNullifyTaskEmployee db eid) eid ∧
    (DatabaseManager.delete_project db pid).tasks
      = db.tasks.filter (fun r => r.project_id != some pid) ∧
    (DatabaseManager.delete_project db pid).projects
      = db.projects.filter (fun r => r.id != pid) ∧
    (DatabaseManager.delete_project db pid).employees = db.employees := by
  refine ⟨rfl, rfl, List.length_map _ _, ?_, rfl, rfl, rfl, rfl⟩
  apply forall₂_map_self
  intro told htold
  by_cases hm : told.employee_id = some eid
  · rw [if_pos hm]
    exact ⟨rfl, rfl, rfl, rfl, rfl, fun _ => rfl, fun hne => absurd hm hne⟩
  · rw [if_neg hm]
    exact ⟨rfl, rfl, rfl, rfl, rfl, fun heq => absurd heq hm, fun _ => rfl⟩

/-- C3 witness: deleting employee 1 from the concrete store empties the
employee table, keeps exactly one task row, and leaves the project. -/
theorem C3_delete_semantics_witness :
    (DatabaseManager.delete_employee db1 1).employees = [] ∧
    (DatabaseManager.delete_employee db1 1).tasks.length = 1 ∧
    (DatabaseManager.delete_employee db1 1).projects = db1.projects := by
  have h := C3_delete_semantics db1 1 1
  refine ⟨?_, ?_, h.2.1⟩
  · rw [h.1]
    decide
  · rw [h.2.2.1]
    decide

/-- C8: each update operation overwrites exactly the rows whose identifier
matches the entity's identifier with all current field values, leaves every
other row and the other tables unchanged (completing without raising), and
when no row carries that identifier it affects zero rows, leaving the store
unchanged. -/
theorem C8_update_semantics (db : Database) (e : Employee) (p : Project) (t : Task) :
    (DatabaseManager.update_employee db e).projects = db.projects ∧
    (DatabaseManager.update_employee db e).tasks = db.tasks ∧
    (DatabaseManager.update_employee db e).employees.length = db.employees.length ∧
    List.Forall₂ (fun rold rnew =>
        (e.get_id = some rold.id →
          rnew = ⟨rold.id, e.get_name, e.get_position, e.get_salary,
            e.get_hours_worked⟩) ∧
        (e.get_id ≠ some rold.id → rnew = rold))
      db.employees (DatabaseManager.update_employee db e).employees ∧
    ((∀ r ∈ db.employees, e.get_id ≠ some r.id) →
      DatabaseManager.update_employee db e = db) ∧
    (DatabaseManager.update_project db p).employees = db.employees ∧
    (DatabaseManager.update_project db p).tasks = db.tasks ∧
    List.Forall₂ (fun rold rnew =>
        (p.get_id = some rold.id → rnew = ⟨rold.id, p.get_title⟩) ∧
        (p.get_id ≠ some rold.id → rnew = rold))
      db.projects (DatabaseManager.update_project db p).projects ∧
    ((∀ r ∈ db.projects, p.get_id ≠ some r.id) →
      DatabaseManager.update_project db p = db) ∧
    (DatabaseManager.update_task db t).employees = db.employees ∧
    (DatabaseManager.update_task db t).projects = db.projects ∧
    List.Forall₂ (fun rold rnew =>
        (t.get_id = some rold.id →
          rnew = ⟨rold.id, t.get_title, t.get_description, t.get_status,
            DatabaseManager.taskEmployeeId t, t.get_project_id⟩) ∧
        (t.get_id ≠ some rold.id → rnew = rold))
      db.tasks (DatabaseManager.update_task db t).tasks ∧
    ((∀ r ∈ db.tasks, t.get_id ≠ some r.id) →
      DatabaseManager.update_task db t = db) := by
  refine ⟨rfl, rfl, List.length_map _ _, ?_, ?_, rfl, rfl, ?_, ?_, rfl, rfl, ?_, ?_⟩
  · apply forall₂_map_self
    intro r hr
    by_cases hm : e.get_id = some r.id
    · rw [if_pos hm]
      exact ⟨fun _ => rfl, fun hne => absurd hm hne⟩
    · rw [if_neg hm]
      exact ⟨fun heq => absurd heq hm, fun _ => rfl⟩
  · intro hno
    have hmap : db.employees.map (fun r =>
        if e.get_id = some r.id then
          (⟨r.id, e.get_name, e.get_position, e.get_salary,
            e.get_hours_worked⟩ : EmployeeRow)
        else r) = db.employees :=
      list_map_self _ _ (fun r hr => if_neg (hno r hr))
    show { db with employees := db.employees.map _ } = db
    rw [hmap]
  · apply forall₂_map_self
    intro r hr
    by_cases hm : p.get_id = some r.id
    · rw [if_pos hm]
      exact ⟨fun _ => rfl, fun hne => absurd hm hne⟩
    · rw [if_neg hm]
      exact ⟨fun heq => absurd heq hm, fun _ => rfl⟩
  · intro hno
    have hmap : db.projects.map (fun r =>
        if p.get_id = some r.id then (⟨r.id, p.get_title⟩ : ProjectRow)
        else r) = db.projects :=
      list_map_self _ _ (fun r hr => if_neg (hno r hr))
    show { db with projects := db.projects.map _ } = db
    rw [hmap]
  · apply forall₂_map_self
    intro r hr
    by_cases hm : t.get_id = some r.id
    · rw [if_pos hm]
      exact ⟨fun _ => rfl, fun hne => absurd hm hne⟩
    · rw [if_neg hm]
      exact ⟨fun heq => absurd heq hm, fun _ => rfl⟩
  · intro hno
    have hmap : db.tasks.map (fun r =>
        if t.get_id = some r.id then
          (⟨r.id, t.get_title, t.get_description, t.get_status,
            DatabaseManager.taskEmployeeId t, t.get_project_id⟩ : TaskRow)
        else r) = db.tasks :=
      list_map_self _ _ (fun r hr => if_neg (hno r hr))
    show { db with tasks := db.tasks.map _ } = db
    rw [hmap]

/-- C8 witness: updating an entity that carries no identifier against the
fresh empty store matches zero rows and leaves the store unchanged. -/
theorem C8_update_semantics_witness :
    DatabaseManager.update_employee initDatabase emp100k = initDatabase := by
  exact (C8_update_semantics initDatabase emp100k proj0 task0).2.2.2.2.1
    (fun r hr => by simp [initDatabase] at hr)

/-- C10: get_tasks returns a fresh copy of the project's internal task list:
the copy has the same contents, taking it does not disturb the internal
list, and mutating the returned list (append or remove) leaves the
project's own task list, project_progress() and get_completed_tasks_count()
unchanged; the project's own add_task does change the internal task
collection, and set_tasks repoints it. -/
theorem C10_get_tasks_copy (h : ListHeap) (p : ProjectObj) (t : Task)
    (hwf : p.tasksRef < h.next) :
    ((p.get_tasks h).2).lists (p.get_tasks h).1 = h.lists p.tasksRef ∧
    ((p.get_tasks h).2).lists p.tasksRef = h.lists p.tasksRef ∧
    (listAppendObj (p.get_tasks h).2 (p.get_tasks h).1 t).lists p.tasksRef
      = h.lists p.tasksRef ∧
    (listRemoveObj (p.get_tasks h).2 (p.get_tasks h).1 t).lists p.tasksRef
      = h.lists p.tasksRef ∧
    p.project_progress (listAppendObj (p.get_tasks h).2 (p.get_tasks h).1 t)
      = p.project_progress h ∧
    p.project_progress (listRemoveObj (p.get_tasks h).2 (p.get_tasks h).1 t)
      = p.project_progress h ∧
    p.get_completed_tasks_count (listAppendObj (p.get_tasks h).2 (p.get_tasks h).1 t)
      = p.get_completed_tasks_count h ∧
    p.get_completed_tasks_count (listRemoveObj (p.get_tasks h).2 (p.get_tasks h).1 t)
      = p.get_completed_tasks_count h ∧
    (p.add_task h t).lists p.tasksRef = h.lists p.tasksRef ++ [t] ∧
    (p.set_tasks (p.get_tasks h).1).tasksRef = (p.get_tasks h).1 := by
  have hne : p.tasksRef ≠ h.next := Nat.ne_of_lt hwf
  have hcopy : ((p.get_tasks h).2).lists (p.get_tasks h).1 = h.lists p.tasksRef := by
    simp [ProjectObj.get_tasks, ListHeap.alloc]
  have hkeep : ((p.get_tasks h).2).lists p.tasksRef = h.lists p.tasksRef := by
    simp [ProjectObj.get_tasks, ListHeap.alloc, Function.update_noteq hne]
  have happ : (listAppendObj (p.get_tasks h).2 (p.get_tasks h).1 t).lists p.tasksRef
      = h.lists p.tasksRef := by
    simp [listAppendObj, ListHeap.write, ProjectObj.get_tasks, ListHeap.alloc,
      Function.update_noteq hne]
  have hrem : (listRemoveObj (p.get_tasks h).2 (p.get_tasks h).1 t).lists p.tasksRef
      = h.lists p.tasksRef := by
    simp [listRemoveObj, ListHeap.write, ProjectObj.get_tasks, ListHeap.alloc,
      Function.update_noteq hne]
  have hprog : ∀ h2 : ListHeap, h2.lists p.tasksRef = h.lists p.tasksRef →
      p.project_progress h2 = p.project_progress h := by
    intro h2 hh
    unfold ProjectObj.project_progress
    rw [hh]
  have hcount : ∀ h2 : ListHeap, h2.lists p.tasksRef = h.lists p.tasksRef →
      p.get_completed_tasks_count h2 = p.get_completed_tasks_count h := by
    intro h2 hh
    unfold ProjectObj.get_completed_tasks_count
    rw [hh]
  refine ⟨hcopy, hkeep, happ, hrem, hprog _ happ, hprog _ hrem,
    hcount _ happ, hcount _ hrem, ?_, rfl⟩
  simp [ProjectObj.add_task, listAppendObj, ListHeap.write]

/-- C10 witness: on the concrete one-project heap, appending a task to the
list returned by get_tasks leaves the project's internal list (list object
0, currently empty) unchanged. -/
theorem C10_get_tasks_copy_witness :
    projObj0.tasksRef < heap0.next ∧
    (listAppendObj (projObj0.get_tasks heap0).2 (projObj0.get_tasks heap0).1
      task0).lists projObj0.tasksRef = heap0.lists projObj0.tasksRef := by
  exact ⟨by decide, (C10_get_tasks_copy heap0 projObj0 task0 (by decide)).2.2.1⟩

end WorkTracker
